import Mathlib

/-!
Shallow embedding of the deno-express routing core (src/core/methods.ts,
src/router/layer.ts, src/router/route.ts, src/router/router.ts) and proofs
about its dispatch semantics.

Handlers are external collaborators: the spec allows them to mutate the
response context, call the continuation at most once, and throw.  We embed a
handler as a small syntactic description (`Handler`): a list of effect steps
run before the optional continuation call, a flag saying whether the handler
calls `next()`, and a list of steps run after the continuation returns.  The
dispatch machinery itself (layer matching, route dispatch, router scan,
response context) is translated function by function from the source.

Promise resolution in `Router.handle` is modelled by a `resolved` field with
first-resolution-wins semantics (`resolve` is a no-op once a value is stored);
a handler chain that throws is modelled by the `Bool` component `false` of the
semantics, matching the synchronous throw / asynchronous rejection that the
router converts to a 500.  A run whose final `resolved` field is `none`
corresponds to a promise that is never resolved.
-/

namespace DenoExpress

/-- A finished HTTP response: status, header list, body.  Mirrors the fields
of the platform `Response` values the router constructs. -/
structure Resp where
  status : Nat
  headers : List (String × String)
  body : String
deriving Repr, DecidableEq

/-- Embeds `new Response("Not Found", { status: 404 })` from router.ts. -/
def notFoundResp : Resp := ⟨404, [], "Not Found"⟩

/-- Embeds `new Response("Internal Server Error", { status: 500 })`. -/
def internalErrorResp : Resp := ⟨500, [], "Internal Server Error"⟩

/-- Models the JavaScript `toLowerCase()` builtin (character-wise lowering),
written over the character list so that it evaluates by reduction. -/
def lowerStr (s : String) : String := ⟨s.data.map Char.toLower⟩

/-- Models `path.startsWith("/")`, written over the character list. -/
def startsSlash (s : String) : Bool := s.data.head? == some '/'

/-- Models `path.endsWith("/")`, written over the character list. -/
def endsSlash (s : String) : Bool := s.data.getLast? == some '/'

/-- Embeds `Headers.set`: header names are normalized to lower case, an
existing entry is replaced in place, otherwise the pair is appended. -/
def setHeader (hs : List (String × String)) (k v : String) :
    List (String × String) :=
  let key := lowerStr k
  if hs.any (fun p => p.1 == key) then
    hs.map (fun p => if p.1 == key then (key, v) else p)
  else hs ++ [(key, v)]

/-- Embeds the `this.statusCode || 200` fallback in `send`/`json`
(JavaScript treats 0 as falsy). -/
def effStatus (c : Nat) : Nat := if c == 0 then 200 else c

/-- The mutable response context of `createResponseContext` in router.ts:
`statusCode` starts at 200, `headers` starts empty, `_response` (here
`response`) starts `null`. -/
structure Ctx where
  statusCode : Nat
  headers : List (String × String)
  response : Option Resp
deriving Repr, DecidableEq

/-- Embeds the fresh context built by `createResponseContext()`. -/
def initCtx : Ctx := ⟨200, [], none⟩

/-- One effect step a handler may perform on the response context:
`status` embeds `res.status(code)`, `header` embeds `res.headers.set`,
`send`/`json` embed the finalizing calls of the context, `mark` records an
observable handler side effect (for tracing which handlers ran), and `raise`
embeds a synchronous throw or an asynchronous rejection. -/
inductive HStep where
  | status (code : Nat)
  | header (k v : String)
  | send (body : String)
  | json (body : String)
  | mark (tag : Nat)
  | raise
deriving Repr, DecidableEq

/-- A handler behavior: the steps run before the continuation, whether the
handler calls `next()` (at most once, per the handler contract of the spec),
and the steps run after the continuation returns. -/
structure Handler where
  pre : List HStep
  callsNext : Bool
  post : List HStep
deriving Repr, DecidableEq

/-- The state threaded through one `Router.handle` run: the per-request
response context, the promise resolution cell (first resolution wins), and a
log of handler side effects. -/
structure S where
  ctx : Ctx
  resolved : Option Resp
  log : List Nat
deriving Repr, DecidableEq

/-- The state at the start of `handle`: fresh context, unresolved promise,
no side effects yet. -/
def initS : S := ⟨initCtx, none, []⟩

/-- Embeds calling `resolve(r)` on the promise of `handle`: the first call
stores the response, later calls are ignored. -/
def resolve (r : Resp) (s : S) : S :=
  match s.resolved with
  | some _ => s
  | none => { s with resolved := some r }

/-- Runs a single handler step.  The `Bool` is `false` when the step throws.
`send` embeds `this._response = new Response(body, { status: this.statusCode
|| 200, headers: this.headers })`: the status and headers are snapshotted at
the call.  `json` first sets the `Content-Type` header, then builds the
response the same way (the body is taken already serialized). -/
def runStep : HStep → S → Bool × S
  | .status c, s => (true, { s with ctx := { s.ctx with statusCode := c } })
  | .header k v, s =>
      (true, { s with ctx := { s.ctx with headers := setHeader s.ctx.headers k v } })
  | .send b, s =>
      (true, { s with ctx :=
        { s.ctx with response := some ⟨effStatus s.ctx.statusCode, s.ctx.headers, b⟩ } })
  | .json b, s =>
      let hs := setHeader s.ctx.headers "Content-Type" "application/json"
      (true, { s with ctx :=
        { s.ctx with headers := hs,
                     response := some ⟨effStatus s.ctx.statusCode, hs, b⟩ } })
  | .mark t, s => (true, { s with log := s.log ++ [t] })
  | .raise, s => (false, s)

/-- Runs a list of handler steps in order, stopping at the first throw. -/
def runSteps : List HStep → S → Bool × S
  | [], s => (true, s)
  | st :: rest, s =>
    let out := runStep st s
    if out.1 then runSteps rest out.2 else (false, out.2)

/-- Runs one handler given its continuation `k` (the `next` function passed
to it).  This also embeds `Layer.handleRequest` and the `try`/rethrow
wrappers of layer.ts and route.ts, which log and re-throw without recovery,
so they are semantically the identity. -/
def runHandler (h : Handler) (k : S → Bool × S) (s : S) : Bool × S :=
  let out := runSteps h.pre s
  if out.1 then
    if h.callsNext then
      let out2 := k out.2
      if out2.1 then runSteps h.post out2.2 else (false, out2.2)
    else runSteps h.post out.2
  else (false, out.2)

/-- A method-tagged layer of a Route's stack, as built by `addMethod` in
route.ts: `layer.method = method` and the wrapped handler. -/
structure RouteLayer where
  method : String
  handler : Handler
deriving Repr, DecidableEq

/-- A Route from route.ts: the raw registration path, the ordered stack of
method-tagged layers, and the key set of the `methods` map (keys in
insertion order, each present once). -/
structure Route where
  path : String
  stack : List RouteLayer
  methods : List String
deriving Repr, DecidableEq

/-- Embeds `createRoute(path)`: empty stack, empty methods map. -/
def createRoute (path : String) : Route := ⟨path, [], []⟩

/-- Embeds `Route.addMethod(method, ...handlers)`: for each handler a layer
tagged with the method is appended to the stack and the method key is added
to the `methods` map (a JavaScript object records a key once, at its first
insertion). -/
def Route.addMethod (r : Route) (m : String) (hs : List Handler) : Route :=
  hs.foldl
    (fun r h =>
      { r with
        stack := r.stack ++ [⟨m, h⟩],
        methods := if r.methods.contains m then r.methods else r.methods ++ [m] })
    r

/-- Embeds `route.get(...)`, which delegates to `addMethod("get", ...)`. -/
def Route.get (r : Route) (hs : List Handler) : Route := r.addMethod "get" hs

/-- Embeds `route.post(...)`. -/
def Route.post (r : Route) (hs : List Handler) : Route := r.addMethod "post" hs

/-- Embeds `route.put(...)`. -/
def Route.put (r : Route) (hs : List Handler) : Route := r.addMethod "put" hs

/-- Embeds `route.delete(...)`. -/
def Route.del (r : Route) (hs : List Handler) : Route := r.addMethod "delete" hs

/-- Embeds `route.patch(...)`. -/
def Route.patch (r : Route) (hs : List Handler) : Route := r.addMethod "patch" hs

/-- Embeds `route.head(...)`. -/
def Route.head (r : Route) (hs : List Handler) : Route := r.addMethod "head" hs

/-- Embeds `route.options(...)`. -/
def Route.opts (r : Route) (hs : List Handler) : Route := r.addMethod "options" hs

/-- The lowercase HTTP method list exported by src/core/methods.ts. -/
def methods : List String :=
  ["get", "post", "put", "delete", "patch", "options", "head"]

/-- Embeds the `next` closure of `Route.dispatch` in route.ts: while the
index is in bounds, run the layer at the index with the same continuation;
past the end, call `parentNext`.  The dispatched layer's method tag is not
consulted.  (The source's special case for an empty stack calls
`parentNext()` directly, which coincides with the out-of-bounds case.) -/
def dispatchGo : List RouteLayer → (S → Bool × S) → S → Bool × S
  | [], parent, s => parent s
  | l :: rest, parent, s => runHandler l.handler (dispatchGo rest parent) s

/-- Embeds `Route.dispatch(req, res, parentNext)`. -/
def Route.dispatch (r : Route) (parent : S → Bool × S) (s : S) : Bool × S :=
  dispatchGo r.stack parent s

/-- Embeds `normalizePath` from layer.ts: ensure a leading slash, strip a
trailing slash except for the root. -/
def normalizePath (p : String) : String :=
  let q := if startsSlash p then p else "/" ++ p
  if q.length > 1 && endsSlash q then q.dropRight 1 else q

/-- A router-level Layer as stored in the Router's stack: the normalized
path computed by `createLayer`, and the Route attached by `router.route`
(`none` for a layer with no associated route). -/
structure Layer where
  path : String
  route : Option Route
deriving Repr, DecidableEq

/-- Embeds `Layer.match(requestPath)` from layer.ts (the layer method named
`match` in the source): normalize the candidate; a layer whose `route` is
undefined matches unconditionally; otherwise the match compares the Route's
raw `path` with the normalized candidate, then falls back to the wildcard
test `this.path === "*"`. -/
def Layer.matchPath (l : Layer) (requestPath : String) : Bool :=
  let n := normalizePath requestPath
  match l.route with
  | none => true
  | some r => if r.path == n then true else l.path == "*"

/-- Embeds the layer built by `router.route(path)` in router.ts: the layer
path is `normalizePath(path)` (computed by `createLayer`) and `layer.route`
is the Route, whose own `path` stays raw. -/
def routeLayer (path : String) (r : Route) : Layer := ⟨normalizePath path, some r⟩

/-- One iteration of the scan loop in `Router.handle` for the layer `l`,
given the behavior `restGo` of the scan over the remaining layers.  A
non-matching layer, a layer without a route, and a layer whose route does not
list the request method are all skipped (the loop `continue`s).  On the first
full match the route is dispatched with the scan continuation as
`parentNext`; when the dispatched chain completes normally the stored
`_response` is resolved if there is one (the `.then` callback), and a chain
that throws resolves a 500 response (the `catch` paths). -/
def routerStep (method path : String) (l : Layer) (restGo : S → Bool × S)
    (s : S) : Bool × S :=
  if l.matchPath path then
    match l.route with
    | none => restGo s
    | some r =>
      if r.methods.contains method then
        let out := r.dispatch restGo s
        if out.1 then
          match out.2.ctx.response with
          | some resp => (true, resolve resp out.2)
          | none => (true, out.2)
        else (true, resolve internalErrorResp out.2)
      else restGo s
  else restGo s

/-- Embeds the stack exhaustion tail of the `next` closure of
`Router.handle`: resolve the stored response if present, otherwise 404. -/
def routerBase (s : S) : Bool × S :=
  (true, resolve (s.ctx.response.getD notFoundResp) s)

/-- Embeds the `next` closure of `Router.handle` in router.ts, as the scan
over the unscanned part of the stack: each layer contributes one
`routerStep` iteration and exhaustion falls through to `routerBase`. -/
def routerGo (method path : String) (layers : List Layer) : S → Bool × S :=
  layers.foldr (routerStep method path) routerBase

/-- A request as `handle` consumes it: a method string and a URL string. -/
structure Req where
  method : String
  url : String
deriving Repr, DecidableEq

/-- Embeds `getPathname(req)` from router.ts.  The platform URL parser is
passed as a parameter `parse` returning the pathname or `none` on a parse
error; the `catch` branch of the source degrades a parse error to `"/"`. -/
def getPathname (parse : String → Option String) (req : Req) : String :=
  (parse req.url).getD "/"

/-- The final state of one `Router.handle` run over a router stack. -/
def routerRun (stack : List Layer) (method path : String) : S :=
  (routerGo method path stack initS).2

/-- Embeds `Router.handle(req)`: lower-case the method, extract the
pathname, run the scan from a fresh state, and return the promise's value —
`none` when the promise is never resolved. -/
def handle (stack : List Layer) (parse : String → Option String) (req : Req) :
    Option Resp :=
  (routerRun stack (lowerStr req.method) (getPathname parse req)).resolved

/-! Auxiliary definitions used to state the properties. -/

/-- A step that terminates the handler's progress obligation: it either
finalizes a response (`send`, `json`) or throws (`raise`). -/
def finalizing : HStep → Bool
  | .send _ => true
  | .json _ => true
  | .raise => true
  | _ => false

/-- A well-behaved handler for the termination property: it calls its
continuation, or its executed steps finalize a response or throw. -/
def handlerOK (h : Handler) : Bool :=
  h.callsNext || (h.pre ++ h.post).any finalizing

/-- Every handler reachable from the router stack is well behaved. -/
def chainOK (layers : List Layer) : Bool :=
  layers.all fun l =>
    match l.route with
    | none => true
    | some r => r.stack.all fun rl => handlerOK rl.handler

/-- A progress property of a continuation: whenever it completes without
throwing, it has either resolved the promise or stored a response on the
context. -/
def Progress (k : S → Bool × S) : Prop :=
  ∀ s, (k s).1 = true → ((k s).2.resolved.isSome ∨ (k s).2.ctx.response.isSome)

/-- Applies a sequence of `addMethod` registrations to a route.  The
convenience wrappers (`get`, `post`, ..., and the verbs attached dynamically
from the methods list) all delegate to `addMethod` with a fixed lowercase
name, so every registration sequence on a Route is of this form. -/
def applyRegs (r : Route) (regs : List (String × List Handler)) : Route :=
  regs.foldl (fun r q => r.addMethod q.1 q.2) r

/-- A route-stack layer whose handler records its tag and calls `next()`. -/
def callerLayer (m : String) (t : Nat) : RouteLayer := ⟨m, ⟨[.mark t], true, []⟩⟩

/-- A route-stack layer whose handler records its tag and returns without
calling `next()`. -/
def stopperLayer (m : String) (t : Nat) : RouteLayer := ⟨m, ⟨[.mark t], false, []⟩⟩

/-- A URL parser that always succeeds with the root pathname. -/
def okParse : String → Option String := fun _ => some "/"

/-- Scenario for C1: a router whose only route registers only `get`. -/
def itemsStack : List Layer :=
  [routeLayer "/items" ((createRoute "/items").get [⟨[.send "items"], false, []⟩])]

/-- Scenario for C2: one route with a `get` handler that logs tag 1 and
calls `next()`, then a `post` handler that logs tag 2 and sends "B". -/
def leakStack : List Layer :=
  [routeLayer "/"
    (((createRoute "/").get [⟨[.mark 1], true, []⟩]).post
      [⟨[.mark 2, .send "B"], false, []⟩])]

/-- Scenario for C3: a route whose handler neither finalizes a response nor
calls its continuation nor throws. -/
def nopStack : List Layer := [routeLayer "/" ((createRoute "/").get [⟨[], false, []⟩])]

/-- Scenario for C4: a route whose handler only calls `next()`. -/
def passStack : List Layer := [routeLayer "/" ((createRoute "/").get [⟨[], true, []⟩])]

/-- Route for the C4 witness: its handler sends "w". -/
def sendRoute : Route := (createRoute "/").get [⟨[.send "w"], false, []⟩]

/-- Scenario for C6: a handler that first drives the scan to exhaustion via
`next()` (which resolves a 404) and then throws. -/
def lateThrowStack : List Layer :=
  [routeLayer "/" ((createRoute "/").get [⟨[], true, [.raise]⟩])]

/-- Route for the C6 witness: its handler throws immediately. -/
def throwRoute : Route := (createRoute "/").get [⟨[.raise], false, []⟩]

/-- Scenario for C10: a handler that finalizes twice, changing the status
and a header between the two `send` calls. -/
def doubleSendStack : List Layer :=
  [routeLayer "/"
    ((createRoute "/").get
      [⟨[.send "one", .status 418, .header "X" "y", .send "two"], false, []⟩])]

/-! Basic lemmas about the semantics. -/

theorem resolve_resolved (r : Resp) (s : S) :
    (resolve r s).resolved = (s.resolved <|> some r) := by
  cases h : s.resolved <;> simp [resolve, h, Option.orElse]

theorem resolve_isSome (r : Resp) (s : S) : (resolve r s).resolved.isSome := by
  cases h : s.resolved <;> simp [resolve, h]

theorem resolve_log (r : Resp) (s : S) : (resolve r s).log = s.log := by
  cases h : s.resolved <;> simp [resolve, h]

theorem runStep_resolved (st : HStep) (s : S) :
    (runStep st s).2.resolved = s.resolved := by
  cases st <;> simp [runStep]

theorem runSteps_resolved (l : List HStep) (s : S) :
    (runSteps l s).2.resolved = s.resolved := by
  induction l generalizing s with
  | nil => simp [runSteps]
  | cons st rest ih =>
    simp only [runSteps]
    by_cases h : (runStep st s).1
    · simp [h, ih, runStep_resolved]
    · simp [h, runStep_resolved]

theorem runStep_response_mono (st : HStep) (s : S)
    (h : s.ctx.response.isSome) : (runStep st s).2.ctx.response.isSome := by
  cases st <;> simp [runStep] <;> exact h

theorem runSteps_response_mono (l : List HStep) (s : S)
    (h : s.ctx.response.isSome) : (runSteps l s).2.ctx.response.isSome := by
  induction l generalizing s with
  | nil => simpa [runSteps]
  | cons st rest ih =>
    simp only [runSteps]
    by_cases hst : (runStep st s).1
    · simp only [hst, if_true]
      exact ih _ (runStep_response_mono st s h)
    · simpa [hst] using runStep_response_mono st s h

theorem runSteps_append (l₁ l₂ : List HStep) (s : S) :
    runSteps (l₁ ++ l₂) s =
      (if (runSteps l₁ s).1 then runSteps l₂ (runSteps l₁ s).2
       else runSteps l₁ s) := by
  induction l₁ generalizing s with
  | nil => simp [runSteps]
  | cons st rest ih =>
    simp only [List.cons_append, runSteps]
    by_cases hst : (runStep st s).1
    · simp [hst, ih]
    · simp [hst]

theorem runSteps_finalizing (l : List HStep) (s : S)
    (hok : (runSteps l s).1 = true) (hf : l.any finalizing = true) :
    (runSteps l s).2.ctx.response.isSome := by
  induction l generalizing s with
  | nil => simp at hf
  | cons st rest ih =>
    simp only [runSteps] at hok ⊢
    by_cases hst : (runStep st s).1
    · simp only [hst, if_true] at hok ⊢
      cases st with
      | send b => exact runSteps_response_mono rest _ (by simp [runStep])
      | json b => exact runSteps_response_mono rest _ (by simp [runStep])
      | raise => simp [runStep] at hst
      | status c =>
        exact ih _ hok (by simpa [finalizing] using hf)
      | header k v =>
        exact ih _ hok (by simpa [finalizing] using hf)
      | mark t =>
        exact ih _ hok (by simpa [finalizing] using hf)
    · simp [hst] at hok

theorem runHandler_progress (h : Handler) (k : S → Bool × S)
    (hok : handlerOK h = true) (hk : Progress k) : Progress (runHandler h k) := by
  have hok' : h.callsNext = true ∨ (h.pre ++ h.post).any finalizing = true := by
    simpa [handlerOK, Bool.or_eq_true] using hok
  intro s hflag
  simp only [runHandler] at hflag ⊢
  by_cases hpre : (runSteps h.pre s).1
  · simp only [hpre, if_true] at hflag ⊢
    by_cases hnext : h.callsNext
    · simp only [hnext, if_true] at hflag ⊢
      by_cases hkf : (k (runSteps h.pre s).2).1
      · simp only [hkf, if_true] at hflag ⊢
        rcases hk _ hkf with hres | hresp
        · left
          rw [runSteps_resolved]
          exact hres
        · right
          exact runSteps_response_mono _ _ hresp
      · simp [hkf] at hflag
    · simp only [hnext, if_false] at hflag ⊢
      rcases hok' with hc | hf
      · exact absurd hc (by simpa using hnext)
      · right
        have happ := runSteps_append h.pre h.post s
        have h1 : (runSteps (h.pre ++ h.post) s).1 = true := by
          rw [happ]
          simpa [hpre] using hflag
        have h2 := runSteps_finalizing (h.pre ++ h.post) s h1 hf
        rw [happ] at h2
        simpa [hpre] using h2
  · simp [hpre] at hflag

theorem dispatchGo_progress (rls : List RouteLayer) (parent : S → Bool × S)
    (hok : ∀ rl ∈ rls, handlerOK rl.handler = true) (hp : Progress parent) :
    Progress (dispatchGo rls parent) := by
  induction rls with
  | nil => exact hp
  | cons l rest ih =>
    have hrest : Progress (dispatchGo rest parent) :=
      ih (fun rl hrl => hok rl (List.mem_cons_of_mem l hrl))
    exact runHandler_progress l.handler _ (hok l (List.mem_cons_self l rest)) hrest

theorem routerGo_nil (m p : String) (s : S) :
    routerGo m p [] s = (true, resolve (s.ctx.response.getD notFoundResp) s) := rfl

theorem routerGo_cons (m p : String) (l : Layer) (rest : List Layer) :
    routerGo m p (l :: rest) = routerStep m p l (routerGo m p rest) := rfl

theorem routerStep_skip_nomatch (m p : String) (l : Layer) (k : S → Bool × S)
    (s : S) (hm : l.matchPath p = false) : routerStep m p l k s = k s := by
  simp [routerStep, hm]

theorem routerStep_skip_noroute (m p : String) (l : Layer) (k : S → Bool × S)
    (s : S) (hr : l.route = none) : routerStep m p l k s = k s := by
  by_cases hm : l.matchPath p <;> simp [routerStep, hm, hr]

theorem routerStep_skip_method (m p : String) (l : Layer) (r : Route)
    (k : S → Bool × S) (s : S) (hr : l.route = some r)
    (hmeth : r.methods.contains m = false) : routerStep m p l k s = k s := by
  by_cases hm : l.matchPath p <;>
    simp only [routerStep, hm, hr, hmeth, Bool.false_eq_true, if_false, if_true]

theorem routerStep_dispatch (m p : String) (l : Layer) (r : Route)
    (k : S → Bool × S) (s : S) (hm : l.matchPath p = true)
    (hr : l.route = some r) (hmeth : r.methods.contains m = true) :
    routerStep m p l k s =
      (if (r.dispatch k s).1 then
        match (r.dispatch k s).2.ctx.response with
        | some resp => (true, resolve resp (r.dispatch k s).2)
        | none => (true, (r.dispatch k s).2)
       else (true, resolve internalErrorResp (r.dispatch k s).2)) := by
  simp only [routerStep, hm, hr, hmeth, if_true]

theorem routerGo_flag (m p : String) (layers : List Layer) (s : S) :
    (routerGo m p layers s).1 = true := by
  induction layers generalizing s with
  | nil => simp [routerGo_nil]
  | cons l rest ih =>
    rw [routerGo_cons]
    by_cases hm : l.matchPath p
    · cases hr : l.route with
      | none => rw [routerStep_skip_noroute m p l _ s hr]; exact ih s
      | some r =>
        by_cases hmeth : r.methods.contains m
        · rw [routerStep_dispatch m p l r _ s hm hr hmeth]
          by_cases hd : (r.dispatch (routerGo m p rest) s).1
          · simp only [hd, if_true]
            cases (r.dispatch (routerGo m p rest) s).2.ctx.response <;> simp
          · simp [hd]
        · rw [routerStep_skip_method m p l r _ s hr (by simpa using hmeth)]
          exact ih s
    · rw [routerStep_skip_nomatch m p l _ s (by simpa using hm)]
      exact ih s

theorem routerGo_resolves (m p : String) (layers : List Layer) (s : S)
    (hok : chainOK layers = true) : (routerGo m p layers s).2.resolved.isSome := by
  induction layers generalizing s with
  | nil => simp [routerGo_nil, resolve_isSome]
  | cons l rest ih =>
    have hok' := hok
    simp only [chainOK, List.all_cons, Bool.and_eq_true] at hok'
    obtain ⟨hl, hrestall⟩ := hok'
    have hrest : chainOK rest = true := by simpa [chainOK] using hrestall
    rw [routerGo_cons]
    by_cases hm : l.matchPath p
    · cases hr : l.route with
      | none => rw [routerStep_skip_noroute m p l _ s hr]; exact ih s hrest
      | some r =>
        by_cases hmeth : r.methods.contains m
        · rw [routerStep_dispatch m p l r _ s hm hr hmeth]
          have hprog : Progress (r.dispatch (routerGo m p rest)) := by
            have hparent : Progress (routerGo m p rest) := fun s1 _ =>
              Or.inl (ih s1 hrest)
            rw [hr] at hl
            exact dispatchGo_progress r.stack _
              (fun rl hrl => by
                revert hrl
                simpa using List.all_eq_true.mp hl rl) hparent
          by_cases hd : (r.dispatch (routerGo m p rest) s).1
          · simp only [hd, if_true]
            rcases hprog s hd with hres | hresp
            · cases hresp2 : (r.dispatch (routerGo m p rest) s).2.ctx.response with
              | none => simpa using hres
              | some resp => simp [resolve_isSome]
            · cases hresp2 : (r.dispatch (routerGo m p rest) s).2.ctx.response with
              | none => rw [hresp2] at hresp; simp at hresp
              | some resp => simp [resolve_isSome]
          · simp [hd, resolve_isSome]
        · rw [routerStep_skip_method m p l r _ s hr (by simpa using hmeth)]
          exact ih s hrest
    · rw [routerStep_skip_nomatch m p l _ s (by simpa using hm)]
      exact ih s hrest

theorem runHandler_caller (t : Nat) (k : S → Bool × S) (s : S) :
    runHandler ⟨[.mark t], true, []⟩ k s = k { s with log := s.log ++ [t] } := by
  simp only [runHandler, runSteps, runStep, if_true]
  cases hk : k { s with log := s.log ++ [t] } with
  | mk b s2 => cases b <;> simp [hk, runSteps]

theorem runHandler_stopper (t : Nat) (k : S → Bool × S) (s : S) :
    runHandler ⟨[.mark t], false, []⟩ k s = (true, { s with log := s.log ++ [t] }) := by
  simp [runHandler, runSteps, runStep]

theorem dispatchGo_chain (m : String) (tags : List Nat) (rest : List RouteLayer)
    (parent : S → Bool × S) (s : S) :
    dispatchGo (tags.map (callerLayer m) ++ rest) parent s =
      dispatchGo rest parent { s with log := s.log ++ tags } := by
  induction tags generalizing s with
  | nil => simp
  | cons t ts ih =>
    simp only [List.map_cons, List.cons_append, dispatchGo, callerLayer]
    rw [runHandler_caller]
    simp only [List.append_eq]
    rw [ih]
    simp

theorem dispatchGo_handlers (rls₁ rls₂ : List RouteLayer)
    (h : rls₁.map RouteLayer.handler = rls₂.map RouteLayer.handler)
    (parent : S → Bool × S) (s : S) :
    dispatchGo rls₁ parent s = dispatchGo rls₂ parent s := by
  induction rls₁ generalizing rls₂ s with
  | nil =>
    cases rls₂ with
    | nil => rfl
    | cons l rest => simp at h
  | cons l rest ih =>
    cases rls₂ with
    | nil => simp at h
    | cons l₂ rest₂ =>
      simp only [List.map_cons, List.cons.injEq] at h
      simp only [dispatchGo, h.1]
      exact congrFun (congrArg _ (funext fun s1 => ih rest₂ h.2 s1)) s

theorem addMethod_stack_map (r : Route) (m : String) (hs : List Handler) :
    (r.addMethod m hs).stack.map RouteLayer.method =
      r.stack.map RouteLayer.method ++ hs.map (fun _ => m) := by
  induction hs generalizing r with
  | nil => simp [Route.addMethod]
  | cons h hs' ih =>
    show (Route.addMethod _ m hs').stack.map RouteLayer.method = _
    rw [ih]
    simp

theorem mem_methodsInsert (ms : List String) (m x : String) :
    x ∈ (if ms.contains m then ms else ms ++ [m]) ↔ (x ∈ ms ∨ x = m) := by
  by_cases hc : ms.contains m
  · simp only [hc, if_true]
    constructor
    · exact Or.inl
    · rintro (hx | rfl)
      · exact hx
      · exact List.elem_iff.1 hc
  · have hm : m ∉ ms := fun hmem => hc (List.elem_iff.2 hmem)
    simp [hm]

theorem nodup_methodsInsert (ms : List String) (m : String) (hnd : ms.Nodup) :
    (if ms.contains m then ms else ms ++ [m]).Nodup := by
  by_cases hc : ms.contains m
  · have hm : m ∈ ms := List.elem_iff.1 hc
    simpa [hm]
  · have hm : m ∉ ms := fun hmem => hc (List.elem_iff.2 hmem)
    simp only [hc, Bool.false_eq_true, if_false]
    rw [List.nodup_append]
    refine ⟨hnd, List.nodup_singleton m, ?_⟩
    intro a ha hb
    simp only [List.mem_singleton] at hb
    exact hm (hb ▸ ha)

theorem addMethod_inv (r : Route) (m : String) (hs : List Handler)
    (hinv : ∀ x, x ∈ r.methods ↔ x ∈ r.stack.map RouteLayer.method)
    (hnd : r.methods.Nodup) :
    (∀ x, x ∈ (r.addMethod m hs).methods ↔
        x ∈ (r.addMethod m hs).stack.map RouteLayer.method) ∧
      (r.addMethod m hs).methods.Nodup := by
  induction hs generalizing r with
  | nil => exact ⟨hinv, hnd⟩
  | cons h hs' ih =>
    show (∀ x, x ∈ (Route.addMethod _ m hs').methods ↔ _) ∧ _
    refine ih _ (fun x => ?_) (nodup_methodsInsert r.methods m hnd)
    simp only [List.map_append, List.map_cons, List.map_nil, List.mem_append,
      List.mem_singleton, mem_methodsInsert]
    rw [hinv x]

theorem applyRegs_stack_map (r : Route) (regs : List (String × List Handler)) :
    (applyRegs r regs).stack.map RouteLayer.method =
      r.stack.map RouteLayer.method ++
        (regs.map (fun q => q.2.map (fun _ => q.1))).flatten := by
  induction regs generalizing r with
  | nil => simp [applyRegs]
  | cons q regs' ih =>
    show (applyRegs (r.addMethod q.1 q.2) regs').stack.map RouteLayer.method = _
    rw [ih, addMethod_stack_map]
    simp

theorem applyRegs_inv (r : Route) (regs : List (String × List Handler))
    (hinv : ∀ x, x ∈ r.methods ↔ x ∈ r.stack.map RouteLayer.method)
    (hnd : r.methods.Nodup) :
    (∀ x, x ∈ (applyRegs r regs).methods ↔
        x ∈ (applyRegs r regs).stack.map RouteLayer.method) ∧
      (applyRegs r regs).methods.Nodup := by
  induction regs generalizing r with
  | nil => exact ⟨hinv, hnd⟩
  | cons q regs' ih =>
    show (∀ x, x ∈ (applyRegs (r.addMethod q.1 q.2) regs').methods ↔ _) ∧ _
    have h := addMethod_inv r q.1 q.2 hinv hnd
    exact ih _ h.1 h.2

/-! Claim theorems. -/

/-- C1 counterexample: with only `get` registered on `/items`, a POST request
to `/items` terminates with the plain 404 Not Found response, which has
status 404 and carries no headers — not a 405 Method Not Allowed with an
`Allow` header as the claim states. -/
theorem c1_counterexample :
    handle itemsStack (fun _ => some "/items") ⟨"POST", "u"⟩ = some notFoundResp ∧
      notFoundResp.status = 404 ∧ notFoundResp.headers = [] :=
  ⟨rfl, rfl, rfl⟩

/-- C1 amended: when a layer's route matches the path but does not register
the request method, `Router.handle` skips that layer and continues scanning
the later layers unchanged; a scan that exhausts the stack with no stored
response terminates with 404 Not Found (no `Allow` header is produced). -/
theorem c1_skip_then_404 (m p : String) (l : Layer) (rest : List Layer)
    (r : Route) (s : S) (_hm : l.matchPath p = true) (hr : l.route = some r)
    (hmeth : r.methods.contains m = false) :
    routerGo m p (l :: rest) s = routerGo m p rest s ∧
      (∀ s2 : S, s2.ctx.response = none →
        routerGo m p [] s2 = (true, resolve notFoundResp s2)) := by
  constructor
  · rw [routerGo_cons, routerStep_skip_method m p l r _ s hr hmeth]
  · intro s2 h2
    rw [routerGo_nil, h2]
    rfl

/-- Witness for C1: the skip equation evaluated on the concrete router whose
only route registers `get` on `/items`, for a `post` request. -/
theorem c1_skip_then_404_witness :
    routerGo "post" "/items" itemsStack initS = routerGo "post" "/items" [] initS ∧
      routerGo "post" "/items" [] initS = (true, resolve notFoundResp initS) := by
  have h := c1_skip_then_404 "post" "/items"
    (routeLayer "/items" ((createRoute "/items").get [⟨[.send "items"], false, []⟩]))
    [] ((createRoute "/items").get [⟨[.send "items"], false, []⟩]) initS rfl rfl rfl
  exact ⟨h.1, h.2 initS rfl⟩

/-- C2 counterexample: one route with a `get` handler (tag 1, calls next)
and a `post` handler (tag 2, sends "B").  A GET request runs both handlers —
the execution log contains tag 2 — and returns the response produced by the
`post`-registered handler, refuting the claim that no handler registered for
a different method on the same Route ever runs. -/
theorem c2_counterexample :
    (routerRun leakStack "get" "/").log = [1, 2] ∧
      handle leakStack okParse ⟨"GET", "x"⟩ = some ⟨200, [], "B"⟩ :=
  ⟨rfl, rfl⟩

/-- C2 amended: `Route.dispatch` performs no filtering by method — its
behavior depends only on the handler sequence of the stack, not on the
layers' method tags — and it runs the stack's handlers in registration
order: a route whose handlers all call `next()` logs their tags exactly in
registration order. -/
theorem c2_no_method_filter (rls₁ rls₂ : List RouteLayer)
    (heq : rls₁.map RouteLayer.handler = rls₂.map RouteLayer.handler)
    (parent : S → Bool × S) (s : S) :
    dispatchGo rls₁ parent s = dispatchGo rls₂ parent s ∧
      (∀ (tags : List Nat) (m : String),
        (routerRun [routeLayer "/" ⟨"/", tags.map (callerLayer m), [m]⟩] m "/").log
          = tags) := by
  constructor
  · exact dispatchGo_handlers rls₁ rls₂ heq parent s
  · intro tags m
    show (routerGo m "/" [routeLayer "/" ⟨"/", tags.map (callerLayer m), [m]⟩] initS).2.log = tags
    rw [routerGo_cons,
      routerStep_dispatch m "/" (routeLayer "/" ⟨"/", tags.map (callerLayer m), [m]⟩)
        ⟨"/", tags.map (callerLayer m), [m]⟩ (routerGo m "/" []) initS rfl rfl (by simp)]
    have hd : Route.dispatch ⟨"/", tags.map (callerLayer m), [m]⟩ (routerGo m "/" []) initS
        = (true, resolve notFoundResp { initS with log := [] ++ tags }) := by
      show dispatchGo (tags.map (callerLayer m)) (routerGo m "/" []) initS = _
      rw [← List.append_nil (tags.map (callerLayer m)), dispatchGo_chain]
      rfl
    rw [hd]
    simp [resolve, initS, initCtx]

/-- Witness for C2: the trace equation evaluated at the concrete tag list
`[3, 7]` for method `get`. -/
theorem c2_no_method_filter_witness :
    (routerRun [routeLayer "/" ⟨"/", [3, 7].map (callerLayer "get"), ["get"]⟩]
      "get" "/").log = [3, 7] :=
  (c2_no_method_filter [] [] rfl (fun s => (true, s)) initS).2 [3, 7] "get"

/-- C3 counterexample: a route whose handler neither finalizes a response
nor calls its continuation (nor throws) leaves the promise of
`Router.handle` unresolved — the run ends with no resolved response,
refuting the claim that every request resolves to some response. -/
theorem c3_counterexample :
    handle nopStack okParse ⟨"GET", "x"⟩ = none := rfl

/-- C3 amended: for every incoming request, provided every handler reachable
from the router stack either calls its continuation or performs a finalizing
step (`send`/`json`) or throws, `Router.handle` resolves to some response.
Without that proviso a handler that does none of the three leaves the
request unresolved. -/
theorem c3_terminates (stack : List Layer) (parse : String → Option String)
    (req : Req) (hok : chainOK stack = true) :
    (handle stack parse req).isSome := by
  unfold handle routerRun
  exact routerGo_resolves _ _ stack initS hok

/-- Witness for C3: the router whose only handler sends "w" resolves. -/
theorem c3_terminates_witness :
    (handle [routeLayer "/" sendRoute] okParse ⟨"GET", "x"⟩).isSome :=
  c3_terminates [routeLayer "/" sendRoute] okParse ⟨"GET", "x"⟩ rfl

/-- C4 counterexample: a route whose handler only calls `next()` completes
its chain with no finalized response; `Router.handle` returns the 404 Not
Found resolved by the exhausted scan — not a synthesized default 200 OK as
the claim states. -/
theorem c4_counterexample :
    handle passStack okParse ⟨"GET", "x"⟩ = some notFoundResp ∧
      notFoundResp.status = 404 :=
  ⟨rfl, rfl⟩

/-- C4 amended: when the matched route's chain completes without throwing,
the promise of `Router.handle` holds the first resolution made during the
chain if there was one, and otherwise the response finalized on the Response
Context if there is one; no default 200 OK is synthesized — with neither a
resolution nor a finalized response the result is no response at all. -/
theorem c4_completion (r : Route) (p₀ : String) (parse : String → Option String)
    (req : Req) (s' : S)
    (hpath : r.path = normalizePath (getPathname parse req))
    (hmeth : r.methods.contains (lowerStr req.method) = true)
    (hd : r.dispatch (routerGo (lowerStr req.method) (getPathname parse req) []) initS
        = (true, s')) :
    handle [routeLayer p₀ r] parse req = (s'.resolved <|> s'.ctx.response) := by
  have hmatch : (routeLayer p₀ r).matchPath (getPathname parse req) = true := by
    simp [Layer.matchPath, routeLayer, hpath]
  unfold handle routerRun
  rw [routerGo_cons,
    routerStep_dispatch (lowerStr req.method) (getPathname parse req) _ r _ initS
      hmatch rfl hmeth, hd]
  cases hresp : s'.ctx.response with
  | some resp => simp [hresp, resolve_resolved]
  | none => cases hres : s'.resolved <;> simp [hres, Option.orElse]

/-- Witness for C4: a handler that sends "w" and does not call `next()`
finalizes a 200 response with body "w", and `handle` returns it. -/
theorem c4_completion_witness :
    handle [routeLayer "/" sendRoute] okParse ⟨"GET", "x"⟩ =
      some ⟨200, [], "w"⟩ := by
  have h := c4_completion sendRoute "/" okParse ⟨"GET", "x"⟩
    ⟨⟨200, [], some ⟨200, [], "w"⟩⟩, none, []⟩ rfl rfl rfl
  simpa using h

/-- C5: the code evaluated at the failing input.  A layer with path "/a" and
no associated route reports a match for the unrelated path "/b", although
the normalized candidate differs from the stored path and the stored path is
not the wildcard — the always-match-when-unset variant the spec explicitly
rejects. -/
theorem c5_code_eval :
    Layer.matchPath ⟨"/a", none⟩ "/b" = true ∧
      normalizePath "/b" ≠ "/a" ∧ ("/a" : String) ≠ "*" :=
  ⟨rfl, by decide, by decide⟩

/-- C6 counterexample: a handler that first calls `next()` — driving the
scan to exhaustion, which resolves a 404 — and then throws.  The promise was
already resolved when the error surfaced, so `Router.handle` returns the
404, not a 500 as the claim universally states. -/
theorem c6_counterexample :
    handle lateThrowStack okParse ⟨"GET", "x"⟩ = some notFoundResp ∧
      notFoundResp.status ≠ 500 :=
  ⟨rfl, by decide⟩

/-- C6 amended: when the matched route's chain throws (a synchronous throw
or an asynchronous rejection), the error is rethrown by Layer and Route
(not swallowed) and reaches `Router.handle`, which resolves a 500 Internal
Server Error — unless an earlier resolution during the same chain already
fixed the outcome, in which case the first resolution wins. -/
theorem c6_error_to_500 (r : Route) (p₀ : String) (parse : String → Option String)
    (req : Req) (s' : S)
    (hpath : r.path = normalizePath (getPathname parse req))
    (hmeth : r.methods.contains (lowerStr req.method) = true)
    (hd : r.dispatch (routerGo (lowerStr req.method) (getPathname parse req) []) initS
        = (false, s')) :
    handle [routeLayer p₀ r] parse req = (s'.resolved <|> some internalErrorResp) := by
  have hmatch : (routeLayer p₀ r).matchPath (getPathname parse req) = true := by
    simp [Layer.matchPath, routeLayer, hpath]
  unfold handle routerRun
  rw [routerGo_cons,
    routerStep_dispatch (lowerStr req.method) (getPathname parse req) _ r _ initS
      hmatch rfl hmeth, hd]
  simp [resolve_resolved]

/-- Witness for C6: a handler that throws before finalizing or calling
`next()` makes `handle` return the 500 response. -/
theorem c6_error_to_500_witness :
    handle [routeLayer "/" throwRoute] okParse ⟨"GET", "x"⟩ =
      some internalErrorResp := by
  have h := c6_error_to_500 throwRoute "/" okParse ⟨"GET", "x"⟩ initS rfl rfl rfl
  simpa using h

/-- C7: continuation semantics inside one Route's chain.  For any prefix of
handlers that call `next()`, a stopper handler that does not, and any
suffix, the execution log after dispatching the route is exactly the prefix
tags followed by the stopper tag, in registration order: each `next()` call
ran the next layer of the Route's stack, and no layer after the handler that
omitted `next()` ever ran. -/
theorem c7_next_chain (pres sufs : List Nat) (stopTag : Nat) (m : String) :
    (routerRun
      [routeLayer "/"
        ⟨"/", pres.map (callerLayer m) ++ stopperLayer m stopTag :: sufs.map (callerLayer m), [m]⟩]
      m "/").log = pres ++ [stopTag] := by
  show (routerGo m "/" _ initS).2.log = pres ++ [stopTag]
  rw [routerGo_cons,
    routerStep_dispatch m "/"
      (routeLayer "/"
        ⟨"/", pres.map (callerLayer m) ++ stopperLayer m stopTag :: sufs.map (callerLayer m), [m]⟩)
      ⟨"/", pres.map (callerLayer m) ++ stopperLayer m stopTag :: sufs.map (callerLayer m), [m]⟩
      (routerGo m "/" []) initS rfl rfl (by simp)]
  have hd : Route.dispatch
      ⟨"/", pres.map (callerLayer m) ++ stopperLayer m stopTag :: sufs.map (callerLayer m), [m]⟩
      (routerGo m "/" []) initS
      = (true, { initS with log := ([] ++ pres) ++ [stopTag] }) := by
    show dispatchGo _ (routerGo m "/" []) initS = _
    rw [dispatchGo_chain]
    simp only [dispatchGo, stopperLayer]
    rw [runHandler_stopper]
    simp [initS]
  rw [hd]
  simp [initS, initCtx]

/-- C8: a request URL the platform parser rejects degrades to the root
pathname "/", and `Router.handle` dispatches it exactly as it dispatches a
request whose URL parses to "/" — the parse error never fails the request. -/
theorem c8_malformed_url (stack : List Layer) (parse : String → Option String)
    (req : Req) (hfail : parse req.url = none) :
    getPathname parse req = "/" ∧
      handle stack parse req = handle stack (fun _ => some "/") req := by
  have hp : getPathname parse req = "/" := by simp [getPathname, hfail]
  refine ⟨hp, ?_⟩
  unfold handle
  rw [hp]
  rfl

/-- Witness for C8: a parser that fails on the concrete request. -/
theorem c8_malformed_url_witness :
    getPathname (fun _ => none) ⟨"GET", "bad url"⟩ = "/" ∧
      handle [] (fun _ => none) ⟨"GET", "bad url"⟩ =
        handle [] (fun _ => some "/") ⟨"GET", "bad url"⟩ :=
  c8_malformed_url [] (fun _ => none) ⟨"GET", "bad url"⟩ rfl

/-- C9 counterexample: `addMethod` accepts the raw string "GET"; the
resulting layer carries method "GET", which is neither in the lowercase HTTP
verb list of methods.ts nor lowercase, refuting the claim that every layer
in a Route's stack carries a lowercase HTTP verb. -/
theorem c9_counterexample :
    ((createRoute "/").addMethod "GET" [⟨[], false, []⟩]).stack.map
        RouteLayer.method = ["GET"] ∧
      methods.contains "GET" = false ∧ lowerStr "GET" ≠ "GET" :=
  ⟨rfl, rfl, by decide⟩

/-- C9 amended: for every registration sequence applied through `addMethod`
(which the convenience wrappers and the dynamically attached verbs delegate
to), every layer of the Route's stack carries exactly the method string
passed at its registration — the stack's method sequence is the
registrations flattened — and the key set of the Route's methods map equals
the set of distinct method values present in the stack, with no duplicate
keys. -/
theorem c9_invariant (p : String) (regs : List (String × List Handler)) :
    ((applyRegs (createRoute p) regs).stack.map RouteLayer.method =
        (regs.map (fun q => q.2.map (fun _ => q.1))).flatten) ∧
      (∀ x, x ∈ (applyRegs (createRoute p) regs).methods ↔
        x ∈ (applyRegs (createRoute p) regs).stack.map RouteLayer.method) ∧
      (applyRegs (createRoute p) regs).methods.Nodup := by
  refine ⟨?_, ?_, ?_⟩
  · simpa [createRoute] using applyRegs_stack_map (createRoute p) regs
  · exact (applyRegs_inv (createRoute p) regs (by simp [createRoute])
      (by simp [createRoute])).1
  · exact (applyRegs_inv (createRoute p) regs (by simp [createRoute])
      (by simp [createRoute])).2

/-- C10: last-write-wins finalization.  Whatever steps ran before (including
an earlier `send`), a further `send` stores a response built from the status
code and headers current at that call; and on the concrete double-send
scenario `handle` returns the second response, built from the status (418)
and header set between the two calls. -/
theorem c10_last_write_wins (s s₁ : S) (steps : List HStep) (b : String)
    (hsteps : runSteps steps s = (true, s₁)) :
    runSteps (steps ++ [HStep.send b]) s =
        (true, { s₁ with ctx := { s₁.ctx with
          response := some ⟨effStatus s₁.ctx.statusCode, s₁.ctx.headers, b⟩ } }) ∧
      handle doubleSendStack okParse ⟨"GET", "x"⟩ = some ⟨418, [("x", "y")], "two"⟩ := by
  constructor
  · rw [runSteps_append, hsteps]
    simp [runSteps, runStep]
  · rfl

/-- Witness for C10: the last-write-wins equation evaluated after a single
status-setting step. -/
theorem c10_last_write_wins_witness :
    runSteps [HStep.status 201, HStep.send "hi"] initS =
        (true, ⟨⟨201, [], some ⟨201, [], "hi"⟩⟩, none, []⟩) ∧
      handle doubleSendStack okParse ⟨"GET", "x"⟩ = some ⟨418, [("x", "y")], "two"⟩ := by
  have h := c10_last_write_wins initS ⟨⟨201, [], none⟩, none, []⟩ [HStep.status 201] "hi" rfl
  exact ⟨by simpa using h.1, h.2⟩

end DenoExpress
